import Mathlib

/-!
Verification development for the recursive proof aggregation module
(src/recursive.rs of eigen-zkvm).

The module orchestrates external collaborators (bellman_ce, franklin_crypto,
recurisive_vk_codegen): the proving system, pairing arithmetic, the VK tree
commitment and the limb codecs.  Those collaborators are out of scope and are
modelled as opaque functions gathered in environment structures
(SerCollab, VerifyEnv, ProveEnv); every piece of control flow of
recursive.rs itself is translated directly.

Rust panics (assert!, assert_eq!, .expect, slice length panics) are modelled
as a distinguished error constructor RError.panic, separate from the
propagated SynthesisError channel RError.synthesis.
-/

namespace RecursiveAgg

/-- Model of bellman_ce SynthesisError values propagated from collaborators.
The source only ever constructs Unsatisfiable itself; other collaborator
errors are collapsed into an opaque numeric code. -/
inductive SynthErr where
  | unsatisfiable
  | other (code : Nat)
deriving DecidableEq

/-- Identifies which Rust panic site fired (assert!, assert_eq!, .expect,
or a slice-library panic), in source order of recursive.rs. -/
inductive PanicKind where
  /-- assert!(num_proofs_to_check > 0) — recursive.rs:112 and :280 -/
  | numProofsPositive
  /-- assert!(num_proofs_to_check < 256) — recursive.rs:113 and :281 -/
  | numProofsBelow256
  /-- assert_eq!(p.num_inputs, num_inputs, "proofs num_inputs mismatch!") — recursive.rs:120 and :284 -/
  | numInputsMismatch
  /-- g2_bases.copy_from_slice panics unless the CRS holds exactly 2 G2 bases — recursive.rs:128 -/
  | copySliceLen
  /-- The .expect("must transform into limbed witness") — recursive.rs:143 -/
  | limbedWitness
  /-- list indexing vks[individual_vk_idxs[proof_id]] out of bounds — recursive.rs:141 -/
  | indexOutOfBounds
  /-- assert_eq!(q.values(), leaf_values) — recursive.rs:149 -/
  | queryValuesMismatch
  /-- The .expect("should synthesize") on the quick satisfiability pass — recursive.rs:180 -/
  | shouldSynthesize
  /-- assert!(cs.is_satisfied()) — recursive.rs:184 -/
  | satisfiedCheck
  /-- assert_eq!(cs.num_inputs, 1) — recursive.rs:186 -/
  | oneInputCheck
  /-- The .expect("must synthesize") on the proving assembly — recursive.rs:192 -/
  | mustSynthesize
  /-- slice chunks panics when the chunk size is zero — recursive.rs:248 -/
  | chunkSizeZero
  /-- assert_eq!(num_consume * 4, aggr_limbs_nums.len()) — recursive.rs:218 -/
  | limbsLen
deriving DecidableEq

/-- Outcome channel of a fallible call in the embedding: a Rust panic or a
propagated SynthesisError (the Err arm of the Rust Result). -/
inductive RError where
  | panic (k : PanicKind)
  | synthesis (e : SynthErr)
deriving DecidableEq

/-- The AggregatedProof bundle of recursive.rs:44-50.  Fr is the scalar
field element type, RP the opaque recursive circuit proof type. -/
structure AggregatedProof (Fr RP : Type) where
  proof : RP
  individual_vk_inputs : List Fr
  individual_num_inputs : Nat
  individual_vk_idxs : List Nat
  aggr_limbs : List Fr
deriving DecidableEq

/-! ## Serialization (recursive.rs:55-99)

Bytes are modelled as natural numbers below 256 in a List Nat stream.
byteorder's little-endian u64 write/read are translated concretely; the
collaborator codecs (Proof::write/read, write_fr_vec/read_fr_vec) stay
opaque in SerCollab.  Readers return the parsed value together with the
unconsumed remainder of the stream, none modelling an io error. -/

/-- Little-endian 8-byte encoding of a u64 write (write_u64); the
as-u64 cast of a wider value keeps only the low 64 bits. -/
def u64Bytes (n : Nat) : List Nat :=
  [n % 256, n / 256 % 256, n / 256 ^ 2 % 256, n / 256 ^ 3 % 256,
   n / 256 ^ 4 % 256, n / 256 ^ 5 % 256, n / 256 ^ 6 % 256, n / 256 ^ 7 % 256]

/-- Little-endian u64 read (read_u64): consumes 8 bytes of the stream. -/
def readU64 : List Nat → Option (Nat × List Nat)
  | b0 :: b1 :: b2 :: b3 :: b4 :: b5 :: b6 :: b7 :: rest =>
      some (b0 + 256 * (b1 + 256 * (b2 + 256 * (b3 + 256 * (b4 + 256 *
        (b5 + 256 * (b6 + 256 * b7)))))), rest)
  | _ => none

/-- write_usize_vec (recursive.rs:66-72): u64 length prefix, then each
element as a u64. -/
def write_usize_vec (p : List Nat) : List Nat :=
  u64Bytes p.length ++ (p.map u64Bytes).flatten

/-- The read loop of read_usize_vec: reads a given number of u64 values. -/
def readUsizeLoop : Nat → List Nat → Option (List Nat × List Nat)
  | 0, bs => some ([], bs)
  | n + 1, bs =>
    match readU64 bs with
    | none => none
    | some (el, bs1) =>
      match readUsizeLoop n bs1 with
      | none => none
      | some (els, bs2) => some (el :: els, bs2)

/-- read_usize_vec (recursive.rs:55-64): u64 count then that many u64s. -/
def read_usize_vec (bs : List Nat) : Option (List Nat × List Nat) :=
  match readU64 bs with
  | none => none
  | some (n, bs1) => readUsizeLoop n bs1

/-- Opaque collaborator codecs used by AggregatedProof::write/read:
the recursive proof codec (Proof::write/read) and the field-element vector
codec (write_fr_vec/read_fr_vec of franklin_crypto). -/
structure SerCollab (Fr RP : Type) where
  writeProof : RP → List Nat
  readProof : List Nat → Option (RP × List Nat)
  writeFrVec : List Fr → List Nat
  readFrVec : List Nat → Option (List Fr × List Nat)

/-- AggregatedProof::write (recursive.rs:75-82): proof, then the two
field-element vectors, then the usize vector, then the input count. -/
def AggregatedProof.write {Fr RP : Type} (S : SerCollab Fr RP)
    (p : AggregatedProof Fr RP) : List Nat :=
  S.writeProof p.proof
    ++ S.writeFrVec p.individual_vk_inputs
    ++ S.writeFrVec p.aggr_limbs
    ++ write_usize_vec p.individual_vk_idxs
    ++ u64Bytes p.individual_num_inputs

/-- AggregatedProof::read (recursive.rs:84-98), same field order. -/
def AggregatedProof.read {Fr RP : Type} (S : SerCollab Fr RP)
    (bs : List Nat) : Option (AggregatedProof Fr RP) :=
  match S.readProof bs with
  | none => none
  | some (proof, bs1) =>
    match S.readFrVec bs1 with
    | none => none
    | some (vk_inputs, bs2) =>
      match S.readFrVec bs2 with
      | none => none
      | some (aggr_limbs, bs3) =>
        match read_usize_vec bs3 with
        | none => none
        | some (vk_idexs, bs4) =>
          match readU64 bs4 with
          | none => none
          | some (num_inputs, _) =>
            some { proof := proof, individual_vk_inputs := vk_inputs,
                   individual_num_inputs := num_inputs,
                   individual_vk_idxs := vk_idexs, aggr_limbs := aggr_limbs }

/-! ## Recursive verifier (recursive.rs:206-261)

Collaborators of the verify path: the plonk verifier core_verify, the limb
codecs fe_to_biguint / witness_to_field (configured by the RnsParameters
built at recursive.rs:210-213, whose derived limb count is the field
numLimbsForInFieldRepresentation), curve point reconstruction
from_xy_checked, and the pairing engine.  prepare-ing of the points is
absorbed into the opaque millerLoop. -/

/-- Opaque collaborator functions consumed by verify / verify_subproof_limbs.
Fr: scalar field, BigU: BigUint, Fq: base field, G1/G2: curve points,
Fqk: target field, RP: recursive proof, RVK: recursive verification key
(accessed only through its two g2_elements). -/
structure VerifyEnv (Fr BigU Fq G1 G2 Fqk RP RVK : Type) where
  feToBiguint : Fr → BigU
  numLimbsForInFieldRepresentation : Nat
  witnessToField : List BigU → Fq
  fromXYChecked : Fq → Fq → Option G1
  millerLoop : List (G1 × G2) → Fqk
  finalExponentiation : Fqk → Option Fqk
  fqkOne : Fqk
  g2Elements : RVK → Fin 2 → G2
  coreVerify : RVK → RP → Except SynthErr Bool

variable {Fr BigU Fq G1 G2 Fqk RP RVK : Type}

/-- verify_subproof_limbs (recursive.rs:206-240): assert the limb count,
slice the limbs into 4 consecutive groups, rebuild the two checked affine
points, and compare the final exponentiation of the Miller loop over
((pair_with_generator, g2[0]), (pair_with_x, g2[1])) with one. -/
def verify_subproof_limbs [DecidableEq Fqk]
    (E : VerifyEnv Fr BigU Fq G1 G2 Fqk RP RVK)
    (proof : AggregatedProof Fr RP) (vk : RVK) : Except RError Bool :=
  let aggr_limbs_nums := proof.aggr_limbs.map E.feToBiguint
  let num_consume := E.numLimbsForInFieldRepresentation
  if num_consume * 4 = aggr_limbs_nums.length then
    let pg_x := E.witnessToField ((aggr_limbs_nums.drop 0).take num_consume)
    let pg_y := E.witnessToField ((aggr_limbs_nums.drop num_consume).take num_consume)
    let px_x := E.witnessToField ((aggr_limbs_nums.drop (2 * num_consume)).take num_consume)
    let px_y := E.witnessToField ((aggr_limbs_nums.drop (3 * num_consume)).take num_consume)
    match E.fromXYChecked pg_x pg_y with
    | none => .error (.synthesis .unsatisfiable)
    | some pair_with_generator =>
      match E.fromXYChecked px_x px_y with
      | none => .error (.synthesis .unsatisfiable)
      | some pair_with_x =>
        match E.finalExponentiation (E.millerLoop
            [(pair_with_generator, E.g2Elements vk 0), (pair_with_x, E.g2Elements vk 1)]) with
        | none => .error (.synthesis .unsatisfiable)
        | some v => .ok (decide (v = E.fqkOne))
  else .error (.panic .limbsLen)

/-- verify (recursive.rs:243-261).  The logging-only chunking of
individual_vk_inputs at recursive.rs:248 panics when
individual_num_inputs is 0 (slice chunks rejects a zero chunk size);
the chunks themselves are otherwise unused and are not retained.  Then the
structural check core_verify runs, an Err propagates, Ok(false) returns
immediately, and only Ok(true) reaches the deferred pairing stage. -/
def verify [DecidableEq Fqk] (E : VerifyEnv Fr BigU Fq G1 G2 Fqk RP RVK)
    (vk : RVK) (aggregated_proof : AggregatedProof Fr RP) : Except RError Bool :=
  if aggregated_proof.individual_num_inputs = 0 then
    .error (.panic .chunkSizeZero)
  else
    match E.coreVerify vk aggregated_proof.proof with
    | .error e => .error (.synthesis e)
    | .ok false => .ok false
    | .ok true => verify_subproof_limbs E aggregated_proof vk

/-- The i-th group of numLimbsForInFieldRepresentation limbs of
aggr_limbs, sent through fe_to_biguint and witness_to_field - the base
field coordinate the verifier decodes (i = 0,1,2,3 for
pair_with_generator.x, .y, pair_with_x.x, .y). -/
def decodedLimbGroup (E : VerifyEnv Fr BigU Fq G1 G2 Fqk RP RVK)
    (proof : AggregatedProof Fr RP) (i : Nat) : Fq :=
  E.witnessToField
    (((proof.aggr_limbs.map E.feToBiguint).drop
        (i * E.numLimbsForInFieldRepresentation)).take
      E.numLimbsForInFieldRepresentation)

/-! ## Recursive prover (recursive.rs:102-204) and
get_aggregated_input (recursive.rs:275-301)

Collaborators of the prove path: the CRS accessor, create_vks_tree /
get_commitment, into_witness_for_params, produce_query, make_aggregate,
make_public_input_and_limbed_aggregate, the two circuit assemblies and the
proof creation.  The parameter bundles rescue_params / rns_params /
aux_data / transcript_params are constants built the same way at every
call site (recursive.rs:124-125, 129, and 287-288) and are absorbed into
the opaque collaborator functions. -/

/-- OldProof (better_cs Proof): its public input count, its input values,
and the rest of its fields (commitments, openings) opaque in `rest`. -/
structure OldProofM (Fr PRest : Type) where
  num_inputs : Nat
  input_values : List Fr
  rest : PRest
deriving DecidableEq

/-- The witness fields the prover assembles into
RecursiveAggregationCircuitBn256 (recursive.rs:158-176).  The Option
wrappers of the Rust struct are dropped: prove always fills every witness
with Some.  The borrowed parameter bundles are environment constants and
carry no per-circuit data, so they are not repeated here. -/
structure CircuitM (Fr G2 OVK PathT PRest : Type) where
  num_proofs_to_check : Nat
  num_inputs : Nat
  vk_tree_depth : Nat
  vk_root : Fr
  vk_witnesses : List OVK
  vk_auth_paths : List PathT
  proof_ids : List Nat
  proofs : List (OldProofM Fr PRest)
  g2_elements : G2 × G2
deriving DecidableEq

/-- VK_TREE_DEPTH (recursive.rs:103). -/
def VK_TREE_DEPTH : Nat := 7

/-- Opaque collaborator functions consumed by prove / get_aggregated_input.
OVK: base verification key, Tree: the vks tree, QueryT: a membership
query, PathT: a query path (q.path().to_vec()), Agg: the curve aggregate,
CsT / AsmT: the two assemblies, Setup / Crs / RP as in the source. -/
structure ProveEnv (Fr G2 OVK Tree QueryT PathT Agg Setup Crs RP PRest CsT AsmT : Type) where
  crsG2MonomialBases : Crs → List G2
  createVksTree : List OVK → Nat → Except SynthErr (Tree × List Fr)
  getCommitment : Tree → Fr
  intoWitnessForParams : OVK → Option (List Fr)
  produceQuery : Tree → List Nat → List Fr → QueryT
  queryValues : QueryT → List Fr
  queryPath : QueryT → PathT
  makeAggregate : List (OldProofM Fr PRest) → List OVK → Except SynthErr Agg
  makePublicInputAndLimbedAggregate :
    Fr → List Nat → List (OldProofM Fr PRest) → Agg → Fr × List Fr
  numLimbsForInFieldRepresentation : Nat
  trivialSynthesize : CircuitM Fr G2 OVK PathT PRest → Except SynthErr CsT
  finalizeTrivial : CsT → CsT
  isSatisfied : CsT → Bool
  csNumInputs : CsT → Nat
  createRecursiveCircuitSetup : Nat → Nat → Nat → Except SynthErr Setup
  provingSynthesize : CircuitM Fr G2 OVK PathT PRest → Except SynthErr AsmT
  finalizeProving : AsmT → AsmT
  createProof : AsmT → Setup → Crs → Except SynthErr RP

variable {OVK Tree QueryT PathT Agg Setup Crs PRest CsT AsmT : Type}

/-- The query loop of prove (recursive.rs:139-152): for each proof index,
look up its verification key, turn it into leaf values, query the tree
over that leaf's limb positions, check the query values match, and keep
the query path. -/
def buildQueries [DecidableEq Fr]
    (E : ProveEnv Fr G2 OVK Tree QueryT PathT Agg Setup Crs RP PRest CsT AsmT)
    (vks_tree : Tree) (all_witness_values : List Fr)
    (vks : List OVK) (individual_vk_idxs : List Nat) :
    List Nat → Except RError (List PathT)
  | [] => .ok []
  | proof_id :: restIds =>
    match individual_vk_idxs[proof_id]? with
    | none => .error (.panic .indexOutOfBounds)
    | some ix =>
      match vks[ix]? with
      | none => .error (.panic .indexOutOfBounds)
      | some vk =>
        match E.intoWitnessForParams vk with
        | none => .error (.panic .limbedWitness)
        | some leaf_values =>
          let values_per_leaf := leaf_values.length
          let q := E.produceQuery vks_tree
            (List.range' (proof_id * values_per_leaf) values_per_leaf)
            all_witness_values
          if E.queryValues q = leaf_values then
            match buildQueries E vks_tree all_witness_values vks
                individual_vk_idxs restIds with
            | .error e => .error e
            | .ok qs => .ok (E.queryPath q :: qs)
          else .error (.panic .queryValuesMismatch)

/-- The precondition checks and witness preparation of prove
(recursive.rs:111-176), up to and including the circuit assembly and the
(public_input, limbed_aggregate) pair of recursive.rs:156.  Returns the
assembled circuit together with that pair. -/
def provePrepared [DecidableEq Fr]
    (E : ProveEnv Fr G2 OVK Tree QueryT PathT Agg Setup Crs RP PRest CsT AsmT)
    (big_crs : Crs) (old_proofs : List (OldProofM Fr PRest)) (old_vk : OVK) :
    Except RError (CircuitM Fr G2 OVK PathT PRest × Fr × List Fr) :=
  match old_proofs with
  | [] => .error (.panic .numProofsPositive)
  | p0 :: _ =>
    let num_proofs_to_check := old_proofs.length
    if 256 ≤ num_proofs_to_check then .error (.panic .numProofsBelow256)
    else
      let num_inputs := p0.num_inputs
      if ∀ p ∈ old_proofs, p.num_inputs = num_inputs then
        match E.crsG2MonomialBases big_crs with
        | [g2a, g2b] =>
          let vks := old_proofs.map (fun _ => old_vk)
          let individual_vk_idxs := old_proofs.map (fun _ => 0)
          match E.createVksTree [old_vk] VK_TREE_DEPTH with
          | .error e => .error (.synthesis e)
          | .ok (vks_tree, all_witness_values) =>
            let vks_tree_root := E.getCommitment vks_tree
            let proof_ids := individual_vk_idxs
            match buildQueries E vks_tree all_witness_values vks
                individual_vk_idxs (List.range num_proofs_to_check) with
            | .error e => .error e
            | .ok queries =>
              match E.makeAggregate old_proofs vks with
              | .error e => .error (.synthesis e)
              | .ok aggregate =>
                let pl := E.makePublicInputAndLimbedAggregate vks_tree_root
                  proof_ids old_proofs aggregate
                .ok ({ num_proofs_to_check, num_inputs,
                       vk_tree_depth := VK_TREE_DEPTH,
                       vk_root := vks_tree_root, vk_witnesses := vks,
                       vk_auth_paths := queries, proof_ids,
                       proofs := old_proofs, g2_elements := (g2a, g2b) },
                      pl.1, pl.2)
        | _ => .error (.panic .copySliceLen)
      else .error (.panic .numInputsMismatch)

/-- prove (recursive.rs:106-204): after provePrepared, run the quick
satisfiability pass on a trivial assembly (synthesize, finalize,
assert is_satisfied and exactly one public input), derive the setup,
synthesize the proving assembly, create the proof and return the bundle.
individual_vk_inputs is the concatenation of every proof's input values
collected by the loop at recursive.rs:116-119. -/
def prove [DecidableEq Fr]
    (E : ProveEnv Fr G2 OVK Tree QueryT PathT Agg Setup Crs RP PRest CsT AsmT)
    (big_crs : Crs) (old_proofs : List (OldProofM Fr PRest)) (old_vk : OVK) :
    Except RError (AggregatedProof Fr RP) :=
  match provePrepared E big_crs old_proofs old_vk with
  | .error e => .error e
  | .ok (circuit, _public_input, limbed_aggregate) =>
    match E.trivialSynthesize circuit with
    | .error _ => .error (.panic .shouldSynthesize)
    | .ok cs0 =>
      if E.isSatisfied (E.finalizeTrivial cs0) = true then
        if E.csNumInputs (E.finalizeTrivial cs0) = 1 then
          match E.createRecursiveCircuitSetup circuit.num_proofs_to_check
              circuit.num_inputs VK_TREE_DEPTH with
          | .error e => .error (.synthesis e)
          | .ok setup =>
            match E.provingSynthesize circuit with
            | .error _ => .error (.panic .mustSynthesize)
            | .ok asm0 =>
              match E.createProof (E.finalizeProving asm0) setup big_crs with
              | .error e => .error (.synthesis e)
              | .ok proof =>
                .ok { proof,
                      individual_vk_inputs :=
                        (circuit.proofs.map (fun p => p.input_values)).flatten,
                      individual_num_inputs := circuit.num_inputs,
                      individual_vk_idxs := circuit.proof_ids,
                      aggr_limbs := limbed_aggregate }
        else .error (.panic .oneInputCheck)
      else .error (.panic .satisfiedCheck)

/-- get_aggregated_input (recursive.rs:275-301): the same precondition
checks as prove, then the tree root and aggregate, returning the first
component of make_public_input_and_limbed_aggregate. -/
def get_aggregated_input
    (E : ProveEnv Fr G2 OVK Tree QueryT PathT Agg Setup Crs RP PRest CsT AsmT)
    (old_proofs : List (OldProofM Fr PRest)) (old_vk : OVK) :
    Except RError Fr :=
  match old_proofs with
  | [] => .error (.panic .numProofsPositive)
  | p0 :: _ =>
    let num_proofs_to_check := old_proofs.length
    if 256 ≤ num_proofs_to_check then .error (.panic .numProofsBelow256)
    else
      let num_inputs := p0.num_inputs
      if ∀ p ∈ old_proofs, p.num_inputs = num_inputs then
        let vks := old_proofs.map (fun _ => old_vk)
        let proof_ids := (List.range num_proofs_to_check).map (fun _ => 0)
        match E.createVksTree [old_vk] VK_TREE_DEPTH with
        | .error e => .error (.synthesis e)
        | .ok (vks_tree, _) =>
          let vks_tree_root := E.getCommitment vks_tree
          match E.makeAggregate old_proofs vks with
          | .error e => .error (.synthesis e)
          | .ok aggregate =>
            .ok (E.makePublicInputAndLimbedAggregate vks_tree_root proof_ids
              old_proofs aggregate).1
      else .error (.panic .numInputsMismatch)

/-! ## Wire-format remainders

The suffix of the AggregatedProof encoding that is still unread after each
collaborator decode step; used to state the collaborator codec round-trip
assumptions. -/

/-- Bytes following the recursive proof encoding. -/
def tailAfterProof {Fr RP : Type} (S : SerCollab Fr RP)
    (p : AggregatedProof Fr RP) : List Nat :=
  S.writeFrVec p.individual_vk_inputs ++
    (S.writeFrVec p.aggr_limbs ++
      (write_usize_vec p.individual_vk_idxs ++ u64Bytes p.individual_num_inputs))

/-- Bytes following the individual_vk_inputs encoding. -/
def tailAfterInputs {Fr RP : Type} (S : SerCollab Fr RP)
    (p : AggregatedProof Fr RP) : List Nat :=
  S.writeFrVec p.aggr_limbs ++
    (write_usize_vec p.individual_vk_idxs ++ u64Bytes p.individual_num_inputs)

/-- Bytes following the aggr_limbs encoding. -/
def tailAfterLimbs {Fr RP : Type} (_S : SerCollab Fr RP)
    (p : AggregatedProof Fr RP) : List Nat :=
  write_usize_vec p.individual_vk_idxs ++ u64Bytes p.individual_num_inputs

/-! ## Concrete instantiations

Closed environments and bundles over small carrier types, used to evaluate
the embedded functions on explicit inputs. -/

/-- A concrete serializer instantiation: the proof codec writes nothing and
the field-element vector codec reuses the length-prefixed u64 layout. -/
def SW : SerCollab Nat Unit where
  writeProof := fun _ => []
  readProof := fun bs => some ((), bs)
  writeFrVec := write_usize_vec
  readFrVec := read_usize_vec

/-- A concrete AggregatedProof bundle. -/
def PW : AggregatedProof Nat Unit :=
  { proof := (), individual_vk_inputs := [3], individual_num_inputs := 1,
    individual_vk_idxs := [0], aggr_limbs := [4, 5] }

/-- Base concrete verifier environment: one limb per coordinate, identity
limb codecs, a trivial pairing whose final exponentiation is the identity,
and a structural check that accepts. -/
def VE : VerifyEnv Nat Nat Nat Nat Nat Nat Unit Unit where
  feToBiguint := fun x => x
  numLimbsForInFieldRepresentation := 1
  witnessToField := fun l => l.headD 0
  fromXYChecked := fun x y => some (x + 2 * y)
  millerLoop := fun l => (l.map (fun pq => pq.1 * pq.2)).sum
  finalExponentiation := fun x => some x
  fqkOne := 0
  g2Elements := fun _ i => i.val
  coreVerify := fun _ _ => .ok true

/-- VE with a structural check that returns Ok(false). -/
def ECfalse : VerifyEnv Nat Nat Nat Nat Nat Nat Unit Unit :=
  { VE with coreVerify := fun _ _ => .ok false }

/-- VE with a point reconstruction that always rejects (both decoded
coordinate pairs off the curve). -/
def ECoff : VerifyEnv Nat Nat Nat Nat Nat Nat Unit Unit :=
  { VE with fromXYChecked := fun _ _ => none }

/-- Bundle with individual_num_inputs = 0 and empty limbs. -/
def apZero : AggregatedProof Nat Unit :=
  { proof := (), individual_vk_inputs := [], individual_num_inputs := 0,
    individual_vk_idxs := [], aggr_limbs := [] }

/-- Bundle with individual_num_inputs = 1 and empty limbs. -/
def apOne : AggregatedProof Nat Unit :=
  { proof := (), individual_vk_inputs := [], individual_num_inputs := 1,
    individual_vk_idxs := [], aggr_limbs := [] }

/-- Bundle with four limbs, matching 4 groups of one limb. -/
def apFour : AggregatedProof Nat Unit :=
  { proof := (), individual_vk_inputs := [], individual_num_inputs := 1,
    individual_vk_idxs := [], aggr_limbs := [1, 2, 3, 4] }

/-- Bundle with two limbs: the wrong limb count for 4 groups of one. -/
def apTwo : AggregatedProof Nat Unit :=
  { proof := (), individual_vk_inputs := [], individual_num_inputs := 1,
    individual_vk_idxs := [], aggr_limbs := [1, 2] }

/-- Concrete prover environment: every collaborator succeeds, the CRS
exposes two G2 bases, leaves carry no limbs, and the public-input pair is
the constant (7, [1, 2, 3, 4]). -/
def PE : ProveEnv Nat Nat Unit Unit Unit Unit Unit Unit Unit Unit Unit Unit Unit where
  crsG2MonomialBases := fun _ => [5, 6]
  createVksTree := fun _ _ => .ok ((), [])
  getCommitment := fun _ => 9
  intoWitnessForParams := fun _ => some []
  produceQuery := fun _ _ _ => ()
  queryValues := fun _ => []
  queryPath := fun _ => ()
  makeAggregate := fun _ _ => .ok ()
  makePublicInputAndLimbedAggregate := fun _ _ _ _ => (7, [1, 2, 3, 4])
  numLimbsForInFieldRepresentation := 1
  trivialSynthesize := fun _ => .ok ()
  finalizeTrivial := fun c => c
  isSatisfied := fun _ => true
  csNumInputs := fun _ => 1
  createRecursiveCircuitSetup := fun _ _ _ => .ok ()
  provingSynthesize := fun _ => .ok ()
  finalizeProving := fun a => a
  createProof := fun _ _ _ => .ok ()

/-- PE with a quick-check pass that reports the constraint system
unsatisfied. -/
def PEbad : ProveEnv Nat Nat Unit Unit Unit Unit Unit Unit Unit Unit Unit Unit Unit :=
  { PE with isSatisfied := fun _ => false }

/-- A base proof with one public input. -/
def pA : OldProofM Nat Unit := { num_inputs := 1, input_values := [5], rest := () }

/-- A base proof with two public inputs (mismatching pA). -/
def pB : OldProofM Nat Unit := { num_inputs := 2, input_values := [8, 9], rest := () }

/-- The bundle prove returns in the PE environment on [pA]. -/
def apW : AggregatedProof Nat Unit :=
  { proof := (), individual_vk_inputs := [5], individual_num_inputs := 1,
    individual_vk_idxs := [0], aggr_limbs := [1, 2, 3, 4] }

/-- The circuit provePrepared assembles in the PE environment on [pA]. -/
def circuitW : CircuitM Nat Nat Unit Unit Unit :=
  { num_proofs_to_check := 1, num_inputs := 1, vk_tree_depth := 7,
    vk_root := 9, vk_witnesses := [()], vk_auth_paths := [()],
    proof_ids := [0], proofs := [pA], g2_elements := (5, 6) }

/-! ## Lemmas and claim theorems -/

lemma readU64_u64Bytes (n : Nat) (hn : n < 2 ^ 64) (rest : List Nat) :
    readU64 (u64Bytes n ++ rest) = some (n, rest) := by
  simp only [u64Bytes, List.cons_append, List.nil_append, readU64]
  refine congrArg (fun v => some (v, rest)) ?_
  omega

lemma readUsizeLoop_join (p : List Nat) (hp : ∀ x ∈ p, x < 2 ^ 64)
    (rest : List Nat) :
    readUsizeLoop p.length ((p.map u64Bytes).flatten ++ rest) = some (p, rest) := by
  induction p with
  | nil => simp [readUsizeLoop]
  | cons a t ih =>
    have ha : a < 2 ^ 64 := hp a (List.mem_cons_self a t)
    have ht : ∀ x ∈ t, x < 2 ^ 64 := fun x hx => hp x (List.mem_cons_of_mem a hx)
    simp only [List.length_cons, List.map_cons, List.flatten, List.append_assoc,
      readUsizeLoop, readU64_u64Bytes a ha, ih ht]

lemma read_write_usize_vec (p : List Nat) (hp : ∀ x ∈ p, x < 2 ^ 64)
    (hlen : p.length < 2 ^ 64) (rest : List Nat) :
    read_usize_vec (write_usize_vec p ++ rest) = some (p, rest) := by
  simp only [write_usize_vec, read_usize_vec, List.append_assoc,
    readU64_u64Bytes p.length hlen, readUsizeLoop_join p hp rest]


/-- C4: decoding the bytes produced by encoding an AggregatedProof yields
the same bundle in all five fields, assuming the opaque collaborator codecs
round-trip at this bundle (each reads back exactly what it wrote, leaving
the remainder untouched) and the usize-typed data fits in 64 bits, as it
does in Rust. -/
theorem aggregated_proof_roundtrip {Fr RP : Type} (S : SerCollab Fr RP)
    (P : AggregatedProof Fr RP)
    (hProof : S.readProof (AggregatedProof.write S P) = some (P.proof, tailAfterProof S P))
    (hInputs : S.readFrVec (tailAfterProof S P) =
      some (P.individual_vk_inputs, tailAfterInputs S P))
    (hLimbs : S.readFrVec (tailAfterInputs S P) =
      some (P.aggr_limbs, tailAfterLimbs S P))
    (hIdxs : ∀ x ∈ P.individual_vk_idxs, x < 2 ^ 64)
    (hIdxLen : P.individual_vk_idxs.length < 2 ^ 64)
    (hNum : P.individual_num_inputs < 2 ^ 64) :
    AggregatedProof.read S (AggregatedProof.write S P) = some P := by
  have hUsize : read_usize_vec (tailAfterLimbs S P) =
      some (P.individual_vk_idxs, u64Bytes P.individual_num_inputs) :=
    read_write_usize_vec P.individual_vk_idxs hIdxs hIdxLen _
  have hU64 : readU64 (u64Bytes P.individual_num_inputs) =
      some (P.individual_num_inputs, []) := by
    simpa using readU64_u64Bytes P.individual_num_inputs hNum []
  simp only [AggregatedProof.read, hProof, hInputs, hLimbs, hUsize, hU64]

/-- Witness for C4 at a concrete serializer and bundle. -/
theorem aggregated_proof_roundtrip_witness :
    AggregatedProof.read SW (AggregatedProof.write SW PW) = some PW :=
  aggregated_proof_roundtrip SW PW rfl rfl rfl (by decide) (by decide) (by decide)

/-- C1 counterexample: on a bundle with individual_num_inputs = 0 the
structural check evaluates to Ok(false), yet verify does not return
Ok(false): it panics while chunking the individual inputs
(recursive.rs:248, slice chunks with a zero chunk size), before the
structural check even runs. -/
theorem verify_chunk_panic_cex :
    ECfalse.coreVerify () apZero.proof = .ok false ∧
    verify ECfalse () apZero = .error (.panic .chunkSizeZero) ∧
    verify ECfalse () apZero ≠ .ok false :=
  ⟨rfl, rfl, fun h => Except.noConfusion h⟩

/-- C1 (amended): provided individual_num_inputs is nonzero (otherwise the
logging chunk pass of recursive.rs:248 panics first), verify returns
Ok(true) exactly when both the structural check and the deferred pairing
check return Ok(true), and whenever the structural check returns Ok(false)
verify returns Ok(false) — for every pairing environment, so no pairing is
evaluated in that case. -/
theorem verify_two_stage {Fr BigU Fq G1 G2 Fqk RP RVK : Type} [DecidableEq Fqk]
    (E : VerifyEnv Fr BigU Fq G1 G2 Fqk RP RVK) (vk : RVK)
    (ap : AggregatedProof Fr RP) (h0 : ap.individual_num_inputs ≠ 0) :
    (verify E vk ap = .ok true ↔
      (E.coreVerify vk ap.proof = .ok true ∧
        verify_subproof_limbs E ap vk = .ok true)) ∧
    (E.coreVerify vk ap.proof = .ok false → verify E vk ap = .ok false) := by
  unfold verify
  rw [if_neg h0]
  cases h : E.coreVerify vk ap.proof with
  | error e => simp [h]
  | ok b => cases b with
    | false => simp [h]
    | true => simp [h]

/-- Witness for C1 at a concrete environment whose structural check
returns Ok(false). -/
theorem verify_two_stage_witness :
    (verify ECfalse () apOne = .ok true ↔
      (ECfalse.coreVerify () apOne.proof = .ok true ∧
        verify_subproof_limbs ECfalse apOne () = .ok true)) ∧
    (ECfalse.coreVerify () apOne.proof = .ok false →
      verify ECfalse () apOne = .ok false) :=
  verify_two_stage ECfalse () apOne (by decide)

/-- C2: with aggr_limbs holding 4 * num_limbs_for_in_field_representation
entries, the deferred pairing check returns Ok(true) exactly when the four
consecutive limb groups decode, in the fixed order pair_with_generator.x,
pair_with_generator.y, pair_with_x.x, pair_with_x.y, to two points accepted
by the on-curve reconstruction and the final exponentiation of the Miller
loop over ((pair_with_generator, g2[0]), (pair_with_x, g2[1])) is the
multiplicative identity of the target field. -/
theorem verify_subproof_limbs_decode {Fr BigU Fq G1 G2 Fqk RP RVK : Type}
    [DecidableEq Fqk] (E : VerifyEnv Fr BigU Fq G1 G2 Fqk RP RVK)
    (proof : AggregatedProof Fr RP) (vk : RVK)
    (h : proof.aggr_limbs.length = 4 * E.numLimbsForInFieldRepresentation) :
    verify_subproof_limbs E proof vk = .ok true ↔
      ∃ pg px,
        E.fromXYChecked (decodedLimbGroup E proof 0) (decodedLimbGroup E proof 1) =
          some pg ∧
        E.fromXYChecked (decodedLimbGroup E proof 2) (decodedLimbGroup E proof 3) =
          some px ∧
        E.finalExponentiation (E.millerLoop
          [(pg, E.g2Elements vk 0), (px, E.g2Elements vk 1)]) = some E.fqkOne := by
  have hcond : E.numLimbsForInFieldRepresentation * 4 =
      (proof.aggr_limbs.map E.feToBiguint).length := by
    rw [List.length_map]; omega
  unfold verify_subproof_limbs decodedLimbGroup
  rw [if_pos hcond]
  simp only [Nat.zero_mul, Nat.one_mul, List.drop_zero]
  cases hg : E.fromXYChecked
      (E.witnessToField ((proof.aggr_limbs.map E.feToBiguint).take
        E.numLimbsForInFieldRepresentation))
      (E.witnessToField (((proof.aggr_limbs.map E.feToBiguint).drop
        E.numLimbsForInFieldRepresentation).take
        E.numLimbsForInFieldRepresentation)) with
  | none => simp [hg]
  | some pg =>
    cases hx : E.fromXYChecked
        (E.witnessToField (((proof.aggr_limbs.map E.feToBiguint).drop
          (2 * E.numLimbsForInFieldRepresentation)).take
          E.numLimbsForInFieldRepresentation))
        (E.witnessToField (((proof.aggr_limbs.map E.feToBiguint).drop
          (3 * E.numLimbsForInFieldRepresentation)).take
          E.numLimbsForInFieldRepresentation)) with
    | none => simp [hg, hx]
    | some px =>
      cases hf : E.finalExponentiation (E.millerLoop
          [(pg, E.g2Elements vk 0), (px, E.g2Elements vk 1)]) with
      | none => simp [hg, hx, hf]
      | some v => simp [hg, hx, hf, eq_comm]

/-- Witness for C2 at a concrete environment and a four-limb bundle. -/
theorem verify_subproof_limbs_decode_witness :
    verify_subproof_limbs VE apFour () = .ok true ↔
      ∃ pg px,
        VE.fromXYChecked (decodedLimbGroup VE apFour 0) (decodedLimbGroup VE apFour 1) =
          some pg ∧
        VE.fromXYChecked (decodedLimbGroup VE apFour 2) (decodedLimbGroup VE apFour 3) =
          some px ∧
        VE.finalExponentiation (VE.millerLoop
          [(pg, VE.g2Elements () 0), (px, VE.g2Elements () 1)]) = some VE.fqkOne :=
  verify_subproof_limbs_decode VE apFour () (by decide)

/-- C3 counterexample: with the structural check passing and the decoded
coordinate pair rejected by the on-curve reconstruction, verify returns the
error Err(SynthesisError::Unsatisfiable) (recursive.rs:229-230), not the
boolean invalid outcome Ok(false) the claim states. -/
theorem verify_offcurve_cex :
    verify ECoff () apFour = .error (.synthesis .unsatisfiable) ∧
    verify ECoff () apFour ≠ .ok false :=
  ⟨rfl, fun h => Except.noConfusion h⟩

/-- C3 (amended): if either decoded (x, y) limb group fails the on-curve
reconstruction, verify_subproof_limbs — and hence verify after a passing
structural check on a bundle with nonzero individual_num_inputs — returns
the propagated error Err(SynthesisError::Unsatisfiable): an error outcome,
distinct from a panic and from the boolean invalid outcome, and the pairing
evaluation is not attempted (the statement holds for every pairing
environment). -/
theorem verify_offcurve_unsatisfiable {Fr BigU Fq G1 G2 Fqk RP RVK : Type}
    [DecidableEq Fqk] (E : VerifyEnv Fr BigU Fq G1 G2 Fqk RP RVK)
    (ap : AggregatedProof Fr RP) (vk : RVK)
    (h : ap.aggr_limbs.length = 4 * E.numLimbsForInFieldRepresentation)
    (hfail : E.fromXYChecked (decodedLimbGroup E ap 0) (decodedLimbGroup E ap 1) =
        none ∨
      E.fromXYChecked (decodedLimbGroup E ap 2) (decodedLimbGroup E ap 3) = none) :
    verify_subproof_limbs E ap vk = .error (.synthesis .unsatisfiable) ∧
    (∀ b : Bool, verify_subproof_limbs E ap vk ≠ .ok b) ∧
    (ap.individual_num_inputs ≠ 0 → E.coreVerify vk ap.proof = .ok true →
      verify E vk ap = .error (.synthesis .unsatisfiable)) := by
  have hcond : E.numLimbsForInFieldRepresentation * 4 =
      (ap.aggr_limbs.map E.feToBiguint).length := by
    rw [List.length_map]; omega
  have hmain : verify_subproof_limbs E ap vk = .error (.synthesis .unsatisfiable) := by
    unfold verify_subproof_limbs
    rw [if_pos hcond]
    unfold decodedLimbGroup at hfail
    simp only [Nat.zero_mul, Nat.one_mul, List.drop_zero] at hfail ⊢
    cases hg : E.fromXYChecked
        (E.witnessToField ((ap.aggr_limbs.map E.feToBiguint).take
          E.numLimbsForInFieldRepresentation))
        (E.witnessToField (((ap.aggr_limbs.map E.feToBiguint).drop
          E.numLimbsForInFieldRepresentation).take
          E.numLimbsForInFieldRepresentation)) with
    | none => rfl
    | some pg =>
      rcases hfail with hfail | hfail
      · rw [hg] at hfail; exact Option.noConfusion hfail
      · rw [hfail]
  refine ⟨hmain, fun b hb => ?_, fun h0 hs => ?_⟩
  · rw [hmain] at hb; exact Except.noConfusion hb
  · unfold verify
    rw [if_neg h0]
    rw [hs]
    exact hmain

/-- Witness for C3 (amended) at a concrete environment whose point
reconstruction rejects. -/
theorem verify_offcurve_unsatisfiable_witness :
    verify_subproof_limbs ECoff apFour () = .error (.synthesis .unsatisfiable) ∧
    (∀ b : Bool, verify_subproof_limbs ECoff apFour () ≠ .ok b) ∧
    (apFour.individual_num_inputs ≠ 0 → ECoff.coreVerify () apFour.proof = .ok true →
      verify ECoff () apFour = .error (.synthesis .unsatisfiable)) :=
  verify_offcurve_unsatisfiable ECoff apFour () (by decide) (Or.inl rfl)

/-- C10: on a bundle whose structural check passes (and whose
individual_num_inputs is nonzero, so the earlier chunk pass does not panic
first) but whose aggr_limbs length is not 4 times
num_limbs_for_in_field_representation, verify hits the assert_eq of
recursive.rs:218: a panic, not a boolean outcome and not a
SynthesisError. -/
theorem verify_limbs_len_panic {Fr BigU Fq G1 G2 Fqk RP RVK : Type}
    [DecidableEq Fqk] (E : VerifyEnv Fr BigU Fq G1 G2 Fqk RP RVK)
    (vk : RVK) (ap : AggregatedProof Fr RP)
    (h0 : ap.individual_num_inputs ≠ 0)
    (hs : E.coreVerify vk ap.proof = .ok true)
    (hlen : ap.aggr_limbs.length ≠ 4 * E.numLimbsForInFieldRepresentation) :
    verify E vk ap = .error (.panic .limbsLen) ∧
    (∀ b : Bool, verify E vk ap ≠ .ok b) ∧
    (∀ e : SynthErr, verify E vk ap ≠ .error (.synthesis e)) := by
  have hcond : ¬ E.numLimbsForInFieldRepresentation * 4 =
      (ap.aggr_limbs.map E.feToBiguint).length := by
    rw [List.length_map]; omega
  have hmain : verify E vk ap = .error (.panic .limbsLen) := by
    unfold verify
    rw [if_neg h0, hs]
    unfold verify_subproof_limbs
    rw [if_neg hcond]
  refine ⟨hmain, fun b hb => ?_, fun e he => ?_⟩
  · rw [hmain] at hb; exact Except.noConfusion hb
  · rw [hmain] at he
    injection he with h1
    exact RError.noConfusion h1

/-- Witness for C10 on a two-limb bundle. -/
theorem verify_limbs_len_panic_witness :
    verify VE () apTwo = .error (.panic .limbsLen) ∧
    (∀ b : Bool, verify VE () apTwo ≠ .ok b) ∧
    (∀ e : SynthErr, verify VE () apTwo ≠ .error (.synthesis e)) :=
  verify_limbs_len_panic VE () apTwo (by decide) rfl (by decide)

/-- C5: an empty proof list, or 256 or more proofs, makes both prove and
get_aggregated_input fail on the corresponding precondition assert — for
every collaborator environment, so no proving or circuit work can be
attempted. -/
theorem prove_preconditions
    {Fr G2 OVK Tree QueryT PathT Agg Setup Crs RP PRest CsT AsmT : Type}
    [DecidableEq Fr]
    (E : ProveEnv Fr G2 OVK Tree QueryT PathT Agg Setup Crs RP PRest CsT AsmT)
    (big_crs : Crs) (old_proofs : List (OldProofM Fr PRest)) (old_vk : OVK)
    (h : old_proofs = [] ∨ 256 ≤ old_proofs.length) :
    (∃ k, prove E big_crs old_proofs old_vk = .error (.panic k)) ∧
    (∃ k, get_aggregated_input E old_proofs old_vk = .error (.panic k)) := by
  rcases h with h | h
  · subst h
    exact ⟨⟨.numProofsPositive, rfl⟩, ⟨.numProofsPositive, rfl⟩⟩
  · cases old_proofs with
    | nil => simp at h
    | cons p0 restP =>
      have hp : provePrepared E big_crs (p0 :: restP) old_vk =
          .error (.panic .numProofsBelow256) := by
        simp only [provePrepared]
        rw [if_pos h]
      refine ⟨⟨.numProofsBelow256, ?_⟩, ⟨.numProofsBelow256, ?_⟩⟩
      · simp only [prove, hp]
      · simp only [get_aggregated_input]
        rw [if_pos h]

/-- Witness for C5 on the empty proof list. -/
theorem prove_preconditions_witness :
    (∃ k, prove PE () ([] : List (OldProofM Nat Unit)) () = .error (.panic k)) ∧
    (∃ k, get_aggregated_input PE ([] : List (OldProofM Nat Unit)) () =
      .error (.panic k)) :=
  prove_preconditions PE () [] () (Or.inl rfl)

/-- C6: if some proof in the list declares a num_inputs different from the
first proof's (and the list is small enough to pass the earlier count
asserts), prove fails on the mismatch assert of recursive.rs:120 — for
every collaborator environment, hence before any circuit construction,
synthesis or proving. -/
theorem prove_num_inputs_mismatch
    {Fr G2 OVK Tree QueryT PathT Agg Setup Crs RP PRest CsT AsmT : Type}
    [DecidableEq Fr]
    (E : ProveEnv Fr G2 OVK Tree QueryT PathT Agg Setup Crs RP PRest CsT AsmT)
    (big_crs : Crs) (p0 : OldProofM Fr PRest) (restP : List (OldProofM Fr PRest))
    (old_vk : OVK)
    (hlen : (p0 :: restP).length < 256)
    (hmm : ∃ p ∈ p0 :: restP, p.num_inputs ≠ p0.num_inputs) :
    prove E big_crs (p0 :: restP) old_vk = .error (.panic .numInputsMismatch) := by
  have hall : ¬ ∀ p ∈ p0 :: restP, p.num_inputs = p0.num_inputs := by
    intro hall
    obtain ⟨p, hpmem, hne⟩ := hmm
    exact hne (hall p hpmem)
  have hp : provePrepared E big_crs (p0 :: restP) old_vk =
      .error (.panic .numInputsMismatch) := by
    simp only [provePrepared]
    rw [if_neg (by omega), if_neg hall]
  simp only [prove, hp]

/-- Witness for C6 on two proofs with different num_inputs. -/
theorem prove_num_inputs_mismatch_witness :
    prove PE () [pA, pB] () = .error (.panic .numInputsMismatch) :=
  prove_num_inputs_mismatch PE () pA [pB] () (by decide) ⟨pB, by decide, by decide⟩

/-- Inversion of prove: a successful run determines a successful
preparation, a passing quick check, and the shape of the returned
bundle. -/
lemma prove_ok_inv
    {Fr G2 OVK Tree QueryT PathT Agg Setup Crs RP PRest CsT AsmT : Type}
    [DecidableEq Fr]
    {E : ProveEnv Fr G2 OVK Tree QueryT PathT Agg Setup Crs RP PRest CsT AsmT}
    {big_crs : Crs} {old_proofs : List (OldProofM Fr PRest)} {old_vk : OVK}
    {ap : AggregatedProof Fr RP}
    (hok : prove E big_crs old_proofs old_vk = .ok ap) :
    ∃ c pi la cs0 setup asm0 rp,
      provePrepared E big_crs old_proofs old_vk = .ok (c, pi, la) ∧
      E.trivialSynthesize c = .ok cs0 ∧
      E.isSatisfied (E.finalizeTrivial cs0) = true ∧
      E.csNumInputs (E.finalizeTrivial cs0) = 1 ∧
      E.createRecursiveCircuitSetup c.num_proofs_to_check c.num_inputs
        VK_TREE_DEPTH = .ok setup ∧
      E.provingSynthesize c = .ok asm0 ∧
      E.createProof (E.finalizeProving asm0) setup big_crs = .ok rp ∧
      ap = { proof := rp,
             individual_vk_inputs := (c.proofs.map (fun p => p.input_values)).flatten,
             individual_num_inputs := c.num_inputs,
             individual_vk_idxs := c.proof_ids,
             aggr_limbs := la } := by
  unfold prove at hok
  split at hok
  · exact Except.noConfusion hok
  next c pi la heq =>
    split at hok
    · exact Except.noConfusion hok
    next cs0 hts =>
      split at hok
      next hsat =>
        split at hok
        next hni =>
          split at hok
          · exact Except.noConfusion hok
          next setup hset =>
            split at hok
            · exact Except.noConfusion hok
            next asm0 hpsyn =>
              split at hok
              · exact Except.noConfusion hok
              next rp hcp =>
                injection hok with hap
                exact ⟨c, pi, la, cs0, setup, asm0, rp, heq, hts, hsat, hni,
                  hset, hpsyn, hcp, hap.symm⟩
        next hni => exact Except.noConfusion hok
      next hsat => exact Except.noConfusion hok

/-- Inversion of provePrepared: a successful preparation determines the
list shape, the passed precondition checks, the collaborator successes and
the assembled circuit and public-input pair. -/
lemma provePrepared_ok_inv
    {Fr G2 OVK Tree QueryT PathT Agg Setup Crs RP PRest CsT AsmT : Type}
    [DecidableEq Fr]
    {E : ProveEnv Fr G2 OVK Tree QueryT PathT Agg Setup Crs RP PRest CsT AsmT}
    {big_crs : Crs} {old_proofs : List (OldProofM Fr PRest)} {old_vk : OVK}
    {c : CircuitM Fr G2 OVK PathT PRest} {pi : Fr} {la : List Fr}
    (h : provePrepared E big_crs old_proofs old_vk = .ok (c, pi, la)) :
    ∃ p0 restP g2a g2b tree aws queries aggregate,
      old_proofs = p0 :: restP ∧
      ¬ 256 ≤ old_proofs.length ∧
      (∀ p ∈ old_proofs, p.num_inputs = p0.num_inputs) ∧
      E.crsG2MonomialBases big_crs = [g2a, g2b] ∧
      E.createVksTree [old_vk] VK_TREE_DEPTH = .ok (tree, aws) ∧
      buildQueries E tree aws (old_proofs.map (fun _ => old_vk))
        (old_proofs.map (fun _ => 0)) (List.range old_proofs.length) = .ok queries ∧
      E.makeAggregate old_proofs (old_proofs.map (fun _ => old_vk)) = .ok aggregate ∧
      c = { num_proofs_to_check := old_proofs.length,
            num_inputs := p0.num_inputs,
            vk_tree_depth := VK_TREE_DEPTH,
            vk_root := E.getCommitment tree,
            vk_witnesses := old_proofs.map (fun _ => old_vk),
            vk_auth_paths := queries,
            proof_ids := old_proofs.map (fun _ => 0),
            proofs := old_proofs,
            g2_elements := (g2a, g2b) } ∧
      pi = (E.makePublicInputAndLimbedAggregate (E.getCommitment tree)
        (old_proofs.map (fun _ => 0)) old_proofs aggregate).1 ∧
      la = (E.makePublicInputAndLimbedAggregate (E.getCommitment tree)
        (old_proofs.map (fun _ => 0)) old_proofs aggregate).2 := by
  cases old_proofs with
  | nil => exact Except.noConfusion h
  | cons p0 restP =>
    simp only [provePrepared] at h
    split at h
    · exact Except.noConfusion h
    next h256 =>
      split at h
      next hall =>
        split at h
        next g2a g2b hg2 =>
          split at h
          · exact Except.noConfusion h
          next tree aws hcvt =>
            split at h
            · exact Except.noConfusion h
            next queries hbq =>
              split at h
              · exact Except.noConfusion h
              next aggregate hma =>
                injection h with h1
                injection h1 with hc h2
                injection h2 with hpi hla
                exact ⟨p0, restP, g2a, g2b, tree, aws, queries, aggregate,
                  rfl, h256, hall, hg2, hcvt, hbq, hma, hc.symm, hpi.symm,
                  hla.symm⟩
        next => exact Except.noConfusion h
      next hall => exact Except.noConfusion h

lemma map_const_zero {A : Type} (l : List A) :
    l.map (fun _ => (0 : Nat)) = List.replicate l.length 0 := by
  induction l with
  | nil => rfl
  | cons a t ih => simp [ih, List.replicate_succ]

lemma sum_map_const {A : Type} (l : List A) (f : A → Nat) (k : Nat)
    (h : ∀ x ∈ l, f x = k) : (l.map f).sum = l.length * k := by
  induction l with
  | nil => simp
  | cons a t ih =>
    have ha : f a = k := h a (List.mem_cons_self a t)
    have ht : ∀ x ∈ t, f x = k := fun x hx => h x (List.mem_cons_of_mem a hx)
    simp [ha, ih ht, Nat.succ_mul, Nat.add_comm]

/-- C7: whenever prove succeeds, get_aggregated_input on the same proof
list and key succeeds and returns exactly the first component of the
make_public_input_and_limbed_aggregate pair computed by prove — the pair
whose second component is the aggr_limbs bound into the returned
AggregatedProof (both calls pass the same tree root, proof indices, proofs
and aggregate). -/
theorem get_aggregated_input_matches_prove
    {Fr G2 OVK Tree QueryT PathT Agg Setup Crs RP PRest CsT AsmT : Type}
    [DecidableEq Fr]
    (E : ProveEnv Fr G2 OVK Tree QueryT PathT Agg Setup Crs RP PRest CsT AsmT)
    (big_crs : Crs) (old_proofs : List (OldProofM Fr PRest)) (old_vk : OVK)
    (ap : AggregatedProof Fr RP)
    (hok : prove E big_crs old_proofs old_vk = .ok ap) :
    ∃ x, get_aggregated_input E old_proofs old_vk = .ok x ∧
      ∃ c, provePrepared E big_crs old_proofs old_vk = .ok (c, x, ap.aggr_limbs) := by
  obtain ⟨c, pi, la, cs0, setup, asm0, rp, hprep, _, _, _, _, _, _, hap⟩ :=
    prove_ok_inv hok
  have hla : ap.aggr_limbs = la := by rw [hap]
  obtain ⟨p0, restP, g2a, g2b, tree, aws, queries, aggregate, hlist, h256,
    hall, hg2, hcvt, hbq, hma, hcirc, hpi, hla2⟩ := provePrepared_ok_inv hprep
  subst hlist
  refine ⟨pi, ?_, c, by rw [hla]; exact hprep⟩
  simp only [get_aggregated_input]
  rw [if_neg h256, if_pos hall]
  simp only [hcvt, hma]
  rw [hpi]
  have hmz : (List.range (p0 :: restP).length).map (fun _ => (0 : Nat)) =
      (p0 :: restP).map (fun _ => (0 : Nat)) := by
    rw [map_const_zero, map_const_zero, List.length_range]
  rw [hmz]

/-- Witness for C7 at a concrete environment where prove succeeds. -/
theorem get_aggregated_input_matches_prove_witness :
    ∃ x, get_aggregated_input PE [pA] () = .ok x ∧
      ∃ c, provePrepared PE () [pA] () = .ok (c, x, apW.aggr_limbs) :=
  get_aggregated_input_matches_prove PE () [pA] () apW rfl

/-- C8: every AggregatedProof returned by prove on N proofs has
individual_vk_inputs of length individual_num_inputs * N, aggr_limbs of
length 4 * num_limbs_for_in_field_representation, and individual_vk_idxs
equal to N zeros — assuming each input proof is well formed (its
input_values list has its declared num_inputs length, as Proof construction
guarantees) and the collaborator
make_public_input_and_limbed_aggregate returns a limbed aggregate of the
configured length (two affine points, x and y, each in
num_limbs_for_in_field_representation limbs). -/
theorem prove_bundle_invariants
    {Fr G2 OVK Tree QueryT PathT Agg Setup Crs RP PRest CsT AsmT : Type}
    [DecidableEq Fr]
    (E : ProveEnv Fr G2 OVK Tree QueryT PathT Agg Setup Crs RP PRest CsT AsmT)
    (big_crs : Crs) (old_proofs : List (OldProofM Fr PRest)) (old_vk : OVK)
    (ap : AggregatedProof Fr RP)
    (hok : prove E big_crs old_proofs old_vk = .ok ap)
    (hwf : ∀ p ∈ old_proofs, p.input_values.length = p.num_inputs)
    (hlimb : ∀ root ids ps agg,
      ((E.makePublicInputAndLimbedAggregate root ids ps agg).2).length =
        4 * E.numLimbsForInFieldRepresentation) :
    ap.individual_vk_inputs.length = ap.individual_num_inputs * old_proofs.length ∧
    ap.aggr_limbs.length = 4 * E.numLimbsForInFieldRepresentation ∧
    ap.individual_vk_idxs = List.replicate old_proofs.length 0 := by
  obtain ⟨c, pi, la, cs0, setup, asm0, rp, hprep, _, _, _, _, _, _, hap⟩ :=
    prove_ok_inv hok
  obtain ⟨p0, restP, g2a, g2b, tree, aws, queries, aggregate, hlist, h256,
    hall, hg2, hcvt, hbq, hma, hcirc, hpi, hla2⟩ := provePrepared_ok_inv hprep
  subst hlist
  subst hap
  refine ⟨?_, ?_, ?_⟩
  · simp only [hcirc]
    rw [List.length_flatten, List.map_map]
    have hsum : ((p0 :: restP).map (fun p => p.input_values.length)).sum =
        (p0 :: restP).length * p0.num_inputs :=
      sum_map_const _ _ _ (fun p hp => by rw [hwf p hp, hall p hp])
    simpa [Function.comp] using hsum.trans (Nat.mul_comm _ _)
  · simp only [hla2, hlimb]
  · simp only [hcirc]
    exact map_const_zero (p0 :: restP)

/-- Witness for C8 at a concrete environment where prove succeeds. -/
theorem prove_bundle_invariants_witness :
    apW.individual_vk_inputs.length = apW.individual_num_inputs * [pA].length ∧
    apW.aggr_limbs.length = 4 * PE.numLimbsForInFieldRepresentation ∧
    apW.individual_vk_idxs = List.replicate [pA].length 0 :=
  prove_bundle_invariants PE () [pA] () apW rfl (by decide)
    (fun _ _ _ _ => rfl)

lemma buildQueries_env_update
    {Fr G2 OVK Tree QueryT PathT Agg Setup Crs RP PRest CsT AsmT : Type}
    [DecidableEq Fr]
    (E : ProveEnv Fr G2 OVK Tree QueryT PathT Agg Setup Crs RP PRest CsT AsmT)
    (s : Nat → Nat → Nat → Except SynthErr Setup)
    (ps : CircuitM Fr G2 OVK PathT PRest → Except SynthErr AsmT)
    (f : AsmT → AsmT) (cp : AsmT → Setup → Crs → Except SynthErr RP)
    (tree : Tree) (aws : List Fr) (vks : List OVK) (idxs : List Nat)
    (ids : List Nat) :
    buildQueries { E with
        createRecursiveCircuitSetup := s, provingSynthesize := ps,
        finalizeProving := f, createProof := cp } tree aws vks idxs ids =
      buildQueries E tree aws vks idxs ids := by
  induction ids with
  | nil => rfl
  | cons i t ih => simp only [buildQueries, ih]

lemma provePrepared_env_update
    {Fr G2 OVK Tree QueryT PathT Agg Setup Crs RP PRest CsT AsmT : Type}
    [DecidableEq Fr]
    (E : ProveEnv Fr G2 OVK Tree QueryT PathT Agg Setup Crs RP PRest CsT AsmT)
    (s : Nat → Nat → Nat → Except SynthErr Setup)
    (ps : CircuitM Fr G2 OVK PathT PRest → Except SynthErr AsmT)
    (f : AsmT → AsmT) (cp : AsmT → Setup → Crs → Except SynthErr RP)
    (big_crs : Crs) (old_proofs : List (OldProofM Fr PRest)) (old_vk : OVK) :
    provePrepared { E with
        createRecursiveCircuitSetup := s, provingSynthesize := ps,
        finalizeProving := f, createProof := cp } big_crs old_proofs old_vk =
      provePrepared E big_crs old_proofs old_vk := by
  cases old_proofs with
  | nil => rfl
  | cons p0 restP => simp only [provePrepared, buildQueries_env_update]

/-- C9: prove runs the quick satisfiability pass — synthesizing the circuit
into a trivial assembly with no proof generation — before the proving
stage: a successful prove implies the finalized trivial assembly was
satisfied and exposed exactly one public input, and if either assertion
fails prove panics, with an outcome independent of the setup-derivation and
proving collaborators (they can be replaced arbitrarily without changing
the result). -/
theorem prove_quick_check
    {Fr G2 OVK Tree QueryT PathT Agg Setup Crs RP PRest CsT AsmT : Type}
    [DecidableEq Fr]
    (E : ProveEnv Fr G2 OVK Tree QueryT PathT Agg Setup Crs RP PRest CsT AsmT)
    (big_crs : Crs) (old_proofs : List (OldProofM Fr PRest)) (old_vk : OVK) :
    (∀ ap : AggregatedProof Fr RP, prove E big_crs old_proofs old_vk = .ok ap →
      ∃ c pi la cs0, provePrepared E big_crs old_proofs old_vk = .ok (c, pi, la) ∧
        E.trivialSynthesize c = .ok cs0 ∧
        E.isSatisfied (E.finalizeTrivial cs0) = true ∧
        E.csNumInputs (E.finalizeTrivial cs0) = 1) ∧
    (∀ c pi la cs0,
      provePrepared E big_crs old_proofs old_vk = .ok (c, pi, la) →
      E.trivialSynthesize c = .ok cs0 →
      (E.isSatisfied (E.finalizeTrivial cs0) = false ∨
        E.csNumInputs (E.finalizeTrivial cs0) ≠ 1) →
      ∀ (s : Nat → Nat → Nat → Except SynthErr Setup)
        (ps : CircuitM Fr G2 OVK PathT PRest → Except SynthErr AsmT)
        (f : AsmT → AsmT) (cp : AsmT → Setup → Crs → Except SynthErr RP), ∃ k,
        prove { E with
                createRecursiveCircuitSetup := s, provingSynthesize := ps,
                finalizeProving := f, createProof := cp }
          big_crs old_proofs old_vk = .error (.panic k)) := by
  constructor
  · intro ap hok
    obtain ⟨c, pi, la, cs0, setup, asm0, rp, hprep, hts, hsat, hni, _, _, _, _⟩ :=
      prove_ok_inv hok
    exact ⟨c, pi, la, cs0, hprep, hts, hsat, hni⟩
  · intro c pi la cs0 hprep hts hbad s ps f cp
    rcases hbad with hb | hb
    · exact ⟨.satisfiedCheck,
        by simp [prove, provePrepared_env_update, hprep, hts, hb]⟩
    · cases hsatv : E.isSatisfied (E.finalizeTrivial cs0) with
      | false => exact ⟨.satisfiedCheck,
          by simp [prove, provePrepared_env_update, hprep, hts, hsatv]⟩
      | true => exact ⟨.oneInputCheck,
          by simp [prove, provePrepared_env_update, hprep, hts, hsatv, hb]⟩

/-- Witness for C9: the quick check passed on a successful concrete run,
and with a failing satisfiability report prove panics even with the
proving-stage collaborators replaced. -/
theorem prove_quick_check_witness :
    (∃ c pi la cs0, provePrepared PE () [pA] () = .ok (c, pi, la) ∧
      PE.trivialSynthesize c = .ok cs0 ∧
      PE.isSatisfied (PE.finalizeTrivial cs0) = true ∧
      PE.csNumInputs (PE.finalizeTrivial cs0) = 1) ∧
    (∃ k, prove { PEbad with
            createRecursiveCircuitSetup := fun _ _ _ => .ok (),
            provingSynthesize := fun _ => .ok (),
            finalizeProving := fun a => a,
            createProof := fun _ _ _ => .ok () }
        () [pA] () = .error (.panic k)) :=
  ⟨(prove_quick_check PE () [pA] ()).1 apW rfl,
   (prove_quick_check PEbad () [pA] ()).2 circuitW 7 [1, 2, 3, 4] () rfl rfl
     (Or.inl rfl) (fun _ _ _ => .ok ()) (fun _ => .ok ()) (fun a => a)
     (fun _ _ _ => .ok ())⟩

end RecursiveAgg
